import Mathlib

/-!
Verification of the fd-based transport layer (`cockpit/transports.py`).

The Python module is single-threaded and reactor-driven, so each handler is
embedded as a pure function from a transport state to a new state together
with a trace of observable effects (`Event`): calls into the protocol
consumer (`data_received`, `eof_received`, `connection_lost` via
`loop.call_soon`, `pause_writing`, `resume_writing`, `process_exited`),
reactor registrations (`add_reader` / `remove_reader` / `add_writer` /
`remove_writer`), bytes actually transferred to an fd by a write syscall
(`fdWrite`), the component-specific virtual hooks `_write_eof_now`
(`writeEofNow`) and `_close` (`closeHook`), fd closes, and delivered
signals.  Results of nondeterministic OS calls (`os.read`, `os.write`,
`os.writev`, `os.kill`, `select`) are oracle inputs to the handlers.
Python `assert` failures and unreachable deque underflows are modelled by
an `Option` result being `none`.  Byte strings are `List Nat`.
-/

namespace Cockpit

abbrev Bytes := List Nat

/-- Observable effects emitted by the transport code, in program order. -/
inductive Event where
  | dataReceived (data : Bytes)
  | eofReceived
  | connectionLostScheduled (exc : Option Nat)
  | pauseWriting
  | resumeWriting
  | addReader (fd : Int)
  | removeReader (fd : Int)
  | addWriter (fd : Int)
  | removeWriter (fd : Int)
  | fdWrite (fd : Int) (data : Bytes)
  | writeEofNow
  | closeHook
  | fdClosed (fd : Int)
  | signalSent (sig : Nat)
  | processExited
  deriving DecidableEq, Repr

/-- Mutable state of `_Transport`: the two fds (`-1` is the invalid
sentinel), the optional write queue (`None` means not backpressured), and
the `_closing`, `_is_reading`, `_eof` and `_eio_is_eof` flags. -/
structure TransportState where
  in_fd : Int
  out_fd : Int
  queue : Option (List Bytes)
  closing : Bool
  is_reading : Bool
  eof : Bool
  eio_is_eof : Bool
  deriving DecidableEq, Repr

/-- `IOV_MAX = 1024` (man 2 writev). -/
def IOV_MAX : Nat := 1024

/-- `errno.EIO`. -/
def EIO : Nat := 5

/-- Result of an `os.read` call: data, `BlockingIOError`, or an `OSError`
with an errno. -/
inductive ReadResult where
  | ok (data : Bytes)
  | wouldBlock
  | err (errno : Nat)
  deriving DecidableEq, Repr

/-- Result of an `os.write` / `os.writev` call: a byte count,
`BlockingIOError`, or an `OSError` with an errno. -/
inductive WriteResult where
  | ok (n : Nat)
  | wouldBlock
  | err (errno : Nat)
  deriving DecidableEq, Repr

namespace Transport

/-- `_Transport.pause_reading`. -/
def pause_reading (s : TransportState) : TransportState × List Event :=
  if s.is_reading then
    ({ s with is_reading := false }, [.removeReader s.in_fd])
  else
    (s, [])

/-- `_Transport.resume_reading`: only registers the reader when not
already reading and the fd is valid. -/
def resume_reading (s : TransportState) : TransportState × List Event :=
  if ¬ s.is_reading ∧ s.in_fd ≠ -1 then
    ({ s with is_reading := true }, [.addReader s.in_fd])
  else
    (s, [])

/-- `_Transport._close_reader`: pause reading, then invalidate the read fd. -/
def close_reader (s : TransportState) : TransportState × List Event :=
  let p := pause_reading s
  ({ p.1 with in_fd := -1 }, p.2)

/-- `_Transport._remove_write_queue`: if a queue exists, signal
`resume_writing`, unregister the writer, and drop the queue. -/
def remove_write_queue (s : TransportState) : TransportState × List Event :=
  match s.queue with
  | some _ => ({ s with queue := none }, [.resumeWriting, .removeWriter s.out_fd])
  | none => (s, [])

/-- `_Transport.abort`: set closing, close the reader, remove the write
queue, schedule `connection_lost` via `loop.call_soon`, and run the
component-specific `_close` hook. -/
def abort (exc : Option Nat) (s : TransportState) : TransportState × List Event :=
  let r := close_reader { s with closing := true }
  let w := remove_write_queue r.1
  (w.1, r.2 ++ w.2 ++ [.connectionLostScheduled exc, .closeHook])

/-- `_Transport.close`: no-op when already closing; otherwise mark
closing, close the reader, and either defer to the drain handler (queue
pending) or abort immediately. -/
def close (s : TransportState) : TransportState × List Event :=
  if s.closing then
    (s, [])
  else
    let r := close_reader { s with closing := true }
    match r.1.queue with
    | some _ => (r.1, r.2)
    | none =>
        let a := abort none r.1
        (a.1, r.2 ++ a.2)

/-- `_Transport.write_eof`: `assert not self._eof` (modelled as `none`),
then set `_eof`; perform the component half-close now when no queue is
pending, otherwise defer it. -/
def write_eof (s : TransportState) : Option (TransportState × List Event) :=
  if s.eof then
    none
  else
    match s.queue with
    | none => some ({ s with eof := true }, [.writeEofNow])
    | some _ => some ({ s with eof := true }, [])

/-- Shared tail of `_Transport._read_ready` once `data` is known: deliver
nonempty data, or handle EOF (close reader, `eof_received`, close unless
the consumer keeps the transport open). -/
def handle_read (data : Bytes) (keep_open : Bool) (s : TransportState) :
    TransportState × List Event :=
  if data ≠ [] then
    (s, [.dataReceived data])
  else
    let r := close_reader s
    if keep_open then
      (r.1, r.2 ++ [.eofReceived])
    else
      let c := close r.1
      (c.1, r.2 ++ [.eofReceived] ++ c.2)

/-- `_Transport._read_ready`: `keep_open` is the oracle for the protocol's
`eof_received()` return value. -/
def read_ready (r : ReadResult) (keep_open : Bool) (s : TransportState) :
    TransportState × List Event :=
  match r with
  | .wouldBlock => (s, [])
  | .err e =>
      if s.eio_is_eof ∧ e = EIO then
        handle_read [] keep_open s
      else
        abort (some e) s
  | .ok data => handle_read data keep_open s

/-- `_Transport._create_write_queue`: `assert self._queue is None`,
register the writer, create the one-element queue, signal `pause_writing`. -/
def create_write_queue (data : Bytes) (s : TransportState) :
    Option (TransportState × List Event) :=
  match s.queue with
  | some _ => none
  | none => some ({ s with queue := some [data] }, [.addWriter s.out_fd, .pauseWriting])

/-- `_Transport.write`: ignored while closing; `assert not self._eof`;
append to an existing queue (coalescing past `IOV_MAX` segments);
otherwise try an immediate `os.write` and queue any remainder. -/
def write (data : Bytes) (r : WriteResult) (s : TransportState) :
    Option (TransportState × List Event) :=
  if s.closing then
    some (s, [])
  else if s.eof then
    none
  else
    match s.queue with
    | some q =>
        let q1 := q ++ [data]
        let q2 := if IOV_MAX < q1.length then [q1.flatten] else q1
        some ({ s with queue := some q2 }, [])
    | none =>
        match r with
        | .err e => some (abort (some e) s)
        | .wouldBlock =>
            if 0 ≠ data.length then
              create_write_queue data s
            else
              some (s, [])
        | .ok n =>
            if n ≠ data.length then
              match create_write_queue (data.drop n) s with
              | none => none
              | some p => some (p.1, .fdWrite s.out_fd (data.take n) :: p.2)
            else
              some (s, [.fdWrite s.out_fd (data.take n)])

/-- The popping loop of `_Transport._write_ready`: remove fully-written
blocks in order, trim a partially-written leading block.  `none` models
the deque underflow that a syscall result larger than the queued bytes
would cause. -/
def dropBytes : List Bytes → Nat → Option (List Bytes)
  | q, 0 => some q
  | [], _ + 1 => none
  | b :: rest, n + 1 =>
      if n + 1 < b.length then
        some (b.drop (n + 1) :: rest)
      else
        dropBytes rest (n + 1 - b.length)

/-- Tail of `_Transport._write_ready` after `os.writev` returned `n`
(`ev0` holds the `fdWrite` trace of the syscall): pop written blocks and,
if the queue fully drained, remove it, half-close if `_eof` was requested,
and abort if `_closing` was requested. -/
def after_writev (q : List Bytes) (n : Nat) (ev0 : List Event) (s : TransportState) :
    Option (TransportState × List Event) :=
  match dropBytes q n with
  | none => none
  | some q1 =>
      if q1 = [] then
        let w := remove_write_queue { s with queue := some q1 }
        let e3 := if s.eof then [Event.writeEofNow] else []
        if s.closing then
          let a := abort none w.1
          some (a.1, ev0 ++ w.2 ++ e3 ++ a.2)
        else
          some (w.1, ev0 ++ w.2 ++ e3)
      else
        some ({ s with queue := some q1 }, ev0)

/-- `_Transport._write_ready`: `assert self._queue is not None`; gather-write
the whole queue, aborting on a fatal error. -/
def write_ready (r : WriteResult) (s : TransportState) :
    Option (TransportState × List Event) :=
  match s.queue with
  | none => none
  | some q =>
      match r with
      | .err e => some (abort (some e) s)
      | .wouldBlock => after_writev q 0 [] s
      | .ok n => after_writev q n [.fdWrite s.out_fd (q.flatten.take n)] s

end Transport

/-- State of `SubprocessTransport` relevant to exit tracking and signal
delivery: whether `_process` is set (it is, from `__init__` on; `assert
self._process is not None` is modelled via this flag), the cached
`_returncode`, the `_closing` flag inherited from the base, and whether
the pidfd reader registration from `watch_exit` is still in place. -/
structure SubprocState where
  hasProcess : Bool
  returncode : Option Int
  closing : Bool
  pidfd : Int
  pidfdRegistered : Bool
  deriving DecidableEq, Repr

/-- Result of an `os.kill` call: delivered, or `ProcessLookupError`. -/
inductive KillResult where
  | delivered
  | noSuchProcess
  deriving DecidableEq, Repr

namespace SubprocessTransport

/-- `SubprocessTransport.__init__` sets `self._eio_is_eof = True` in pty
mode; otherwise the class default `False` applies. -/
def initEioIsEof (pty : Bool) : Bool := pty

/-- `SubprocessTransport.get_returncode`: a pure query of the cached
status. -/
def get_returncode (st : SubprocState) : Option Int := st.returncode

/-- `SubprocessTransport.send_signal`: `assert self._process is not None`;
no-op once the exit status is known; otherwise `os.kill`, swallowing
`ProcessLookupError` as a benign race. -/
def send_signal (sig : Nat) (k : KillResult) (st : SubprocState) :
    Option (SubprocState × List Event) :=
  if st.hasProcess = false then
    none
  else if st.returncode.isSome then
    some (st, [])
  else
    match k with
    | .delivered => some (st, [.signalSent sig])
    | .noSuchProcess => some (st, [])

/-- `flag_exit` inside `watch_exit`: notify the consumer unless the
transport already began closing. -/
def flag_exit (st : SubprocState) : List Event :=
  if st.closing then [] else [.processExited]

/-- `pidfd_ready` inside `watch_exit`: collect the exit status (the
`waitpid` / `waitstatus_to_exitcode` result is the oracle `code`),
unregister and close the pidfd, and flag the exit. -/
def pidfd_ready (code : Int) (st : SubprocState) : SubprocState × List Event :=
  let st1 := { st with returncode := some code, pidfdRegistered := false }
  (st1, [.removeReader st.pidfd, .fdClosed st.pidfd] ++ flag_exit st1)

/-- `child_watch_fired` inside `watch_exit`: the legacy child-watcher
fallback records the exit code and flags the exit. -/
def child_watch_fired (code : Int) (st : SubprocState) : SubprocState × List Event :=
  let st1 := { st with returncode := some code }
  (st1, flag_exit st1)

end SubprocessTransport

/-- An API call made on a `SubprocessTransport` after construction, with
the oracle for the `os.kill` outcome where one is needed
(`terminate` / `kill` are `send_signal` with a fixed signal number and are
covered by `sendSig`). -/
inductive SubprocOp where
  | sendSig (sig : Nat) (k : KillResult)
  | getRc
  deriving DecidableEq, Repr

/-- Run a sequence of `send_signal` / `get_returncode` calls, collecting
the emitted events and the values returned by `get_returncode`. -/
def runSubprocOps : List SubprocOp → SubprocState →
    Option (SubprocState × List Event × List (Option Int))
  | [], st => some (st, [], [])
  | .sendSig sig k :: ops, st =>
      match SubprocessTransport.send_signal sig k st with
      | none => none
      | some (st1, e1) =>
          match runSubprocOps ops st1 with
          | none => none
          | some (st2, e2, rcs) => some (st2, e1 ++ e2, rcs)
  | .getRc :: ops, st =>
      match runSubprocOps ops st with
      | none => none
      | some (st2, e2, rcs) =>
          some (st2, e2, SubprocessTransport.get_returncode st :: rcs)

/-- State of a `Spooler`: its private duplicated fd (`-1` once closed) and
the accumulated chunks. -/
structure SpoolerState where
  fd : Int
  contents : List Bytes
  deriving DecidableEq, Repr

namespace Spooler

/-- `Spooler.close`: idempotent; unregister the reader, close the
duplicated fd, and invalidate it. -/
def close (sp : SpoolerState) : SpoolerState × List Event :=
  if sp.fd ≠ -1 then
    ({ sp with fd := -1 }, [.removeReader sp.fd, .fdClosed sp.fd])
  else
    (sp, [])

/-- `Spooler._read_ready`: append nonempty data; a zero-length or erroring
read is EOF and triggers self-close. -/
def read_ready (r : ReadResult) (sp : SpoolerState) : SpoolerState × List Event :=
  match r with
  | .wouldBlock => (sp, [])
  | .err _ => close sp
  | .ok data =>
      if data ≠ [] then
        ({ sp with contents := sp.contents ++ [data] }, [])
      else
        close sp

/-- The `while self._is_ready(): self._read_ready()` loop of
`Spooler.get`: `pending` is the oracle sequence of reads the non-blocking
`select` poll makes available; `_is_ready` is `False` once the fd is
closed, and once the oracle runs out. -/
def drain : List ReadResult → SpoolerState → SpoolerState × List Event
  | [], sp => (sp, [])
  | r :: rs, sp =>
      if sp.fd = -1 then
        (sp, [])
      else
        let p := read_ready r sp
        let q := drain rs p.1
        (q.1, p.2 ++ q.2)

/-- `Spooler.get`: drain immediately-available data, return the
concatenation of the buffered chunks, optionally resetting the buffer. -/
def get (reset : Bool) (pending : List ReadResult) (sp : SpoolerState) :
    (SpoolerState × List Event) × Bytes :=
  let d := drain pending sp
  let result := d.1.contents.flatten
  ((if reset then { d.1 with contents := [] } else d.1, d.2), result)

end Spooler

/-- Bytes delivered to an fd by the write syscalls recorded in a trace, in
order. -/
def writtenBytes : List Event → Bytes
  | [] => []
  | .fdWrite _ bs :: evs => bs ++ writtenBytes evs
  | _ :: evs => writtenBytes evs

/-- Bytes currently pending in the write queue (empty when no queue). -/
def queueBytes (s : TransportState) : Bytes :=
  match s.queue with
  | none => []
  | some q => q.flatten

/-- Recognizer for scheduled `connection_lost` notifications. -/
def isConnLost : Event → Bool
  | .connectionLostScheduled _ => true
  | _ => false

/-- Apply a sequence of `write` calls.  The `os.write` oracle is
irrelevant on the paths these theorems use (a queue exists, so no
immediate write is attempted). -/
def applyWrites : List Bytes → TransportState → Option TransportState
  | [], s => some s
  | b :: bs, s =>
      match Transport.write b (.ok 0) s with
      | none => none
      | some p => applyWrites bs p.1

/-- Run the `_write_ready` drain handler for a sequence of successful
`os.writev` results, concatenating the emitted traces. -/
def runDrain : List Nat → TransportState → Option (TransportState × List Event)
  | [], s => some (s, [])
  | n :: ns, s =>
      match Transport.write_ready (.ok n) s with
      | none => none
      | some (s1, e1) =>
          match runDrain ns s1 with
          | none => none
          | some (s2, e2) => some (s2, e1 ++ e2)

/-! ## Helper lemmas -/

@[simp]
theorem writtenBytes_append (a b : List Event) :
    writtenBytes (a ++ b) = writtenBytes a ++ writtenBytes b := by
  induction a with
  | nil => simp [writtenBytes]
  | cons e a ih => cases e <;> simp [writtenBytes, ih]

theorem writtenBytes_abort (exc : Option Nat) (s : TransportState) :
    writtenBytes (Transport.abort exc s).2 = [] := by
  unfold Transport.abort Transport.close_reader Transport.pause_reading
    Transport.remove_write_queue
  cases s.queue <;> cases h : s.is_reading <;> simp [h, writtenBytes]

theorem dropBytes_flatten (q : List Bytes) (n : Nat) (q1 : List Bytes)
    (h : Transport.dropBytes q n = some q1) :
    q.flatten.take n ++ q1.flatten = q.flatten := by
  induction q generalizing n q1 with
  | nil =>
      cases n with
      | zero =>
          simp only [Transport.dropBytes, Option.some.injEq] at h
          subst h; simp
      | succ m => simp [Transport.dropBytes] at h
  | cons b rest ih =>
      cases n with
      | zero =>
          simp only [Transport.dropBytes, Option.some.injEq] at h
          subst h; simp
      | succ m =>
          rw [Transport.dropBytes] at h
          by_cases hb : m + 1 < b.length
          · rw [if_pos hb] at h
            injection h with h
            subst h
            simp only [List.flatten_cons]
            rw [List.take_append_of_le_length (Nat.le_of_lt hb), ← List.append_assoc,
                List.take_append_drop]
          · rw [if_neg hb] at h
            have hble : b.length ≤ m + 1 := Nat.le_of_not_lt hb
            simp only [List.flatten_cons]
            rw [List.take_append_eq_append_take, List.take_of_length_le hble,
                List.append_assoc, ih _ _ h]

theorem write_backpressured (b : Bytes) (r : WriteResult) (s : TransportState)
    (q : List Bytes) (hq : s.queue = some q) (hc : s.closing = false)
    (he : s.eof = false) :
    ∃ q2, Transport.write b r s = some ({ s with queue := some q2 }, []) ∧
      q2.flatten = q.flatten ++ b := by
  refine ⟨if IOV_MAX < (q ++ [b]).length then [(q ++ [b]).flatten] else q ++ [b], ?_, ?_⟩
  · unfold Transport.write
    rw [hq]
    simp [hc, he]
  · split <;> simp

theorem applyWrites_flatten (bs : List Bytes) (s : TransportState) (q : List Bytes)
    (s1 : TransportState) (hq : s.queue = some q) (hc : s.closing = false)
    (he : s.eof = false) (h : applyWrites bs s = some s1) :
    ∃ q1, s1.queue = some q1 ∧ q1.flatten = q.flatten ++ bs.flatten := by
  induction bs generalizing s q with
  | nil =>
      simp only [applyWrites, Option.some.injEq] at h
      subst h
      exact ⟨q, hq, by simp⟩
  | cons b bs ih =>
      rw [applyWrites] at h
      obtain ⟨q2, hw, hf⟩ := write_backpressured b (.ok 0) s q hq hc he
      rw [hw] at h
      obtain ⟨q1, h1, h2⟩ := ih { s with queue := some q2 } q2 rfl hc he h
      refine ⟨q1, h1, ?_⟩
      rw [h2, hf, List.flatten_cons, List.append_assoc]

theorem remove_write_queue_queue_none (s : TransportState) :
    (Transport.remove_write_queue s).1.queue = none := by
  cases hq : s.queue <;> simp [Transport.remove_write_queue, hq]

theorem abort_queue_none (exc : Option Nat) (s : TransportState) :
    (Transport.abort exc s).1.queue = none := by
  unfold Transport.abort
  exact remove_write_queue_queue_none _

theorem writtenBytes_remove_write_queue (s : TransportState) :
    writtenBytes (Transport.remove_write_queue s).2 = [] := by
  cases hq : s.queue <;> simp [Transport.remove_write_queue, hq, writtenBytes]

theorem write_ready_step (n : Nat) (s s1 : TransportState) (e1 : List Event)
    (h : Transport.write_ready (.ok n) s = some (s1, e1)) :
    writtenBytes e1 ++ queueBytes s1 = queueBytes s := by
  cases hq : s.queue with
  | none =>
      simp only [Transport.write_ready, hq] at h
      exact Option.noConfusion h
  | some q =>
      simp only [Transport.write_ready, hq] at h
      cases hd : Transport.dropBytes q n with
      | none =>
          simp only [Transport.after_writev, hd] at h
          exact Option.noConfusion h
      | some q1 =>
          simp only [Transport.after_writev, hd] at h
          have hfl := dropBytes_flatten q n q1 hd
          by_cases h1 : q1 = []
          · rw [if_pos h1] at h
            rw [h1] at hfl
            simp only [List.flatten_nil, List.append_nil] at hfl
            by_cases hcl : s.closing = true
            · rw [if_pos hcl] at h
              injection h with h
              injection h with hs he'
              subst hs; subst he'
              by_cases hef : s.eof = true <;>
                simp [hef, writtenBytes_append, writtenBytes_abort,
                  writtenBytes_remove_write_queue, queueBytes, abort_queue_none, hq,
                  writtenBytes, hfl]
            · rw [if_neg hcl] at h
              injection h with h
              injection h with hs he'
              subst hs; subst he'
              by_cases hef : s.eof = true <;>
                simp [hef, writtenBytes_append, writtenBytes_remove_write_queue,
                  queueBytes, remove_write_queue_queue_none, hq, writtenBytes, hfl]
          · rw [if_neg h1] at h
            injection h with h
            injection h with hs he'
            subst hs; subst he'
            simp [writtenBytes, queueBytes, hq, hfl]

theorem runDrain_invariant (ns : List Nat) (s s2 : TransportState) (evs : List Event)
    (h : runDrain ns s = some (s2, evs)) :
    writtenBytes evs ++ queueBytes s2 = queueBytes s := by
  induction ns generalizing s evs with
  | nil =>
      simp only [runDrain, Option.some.injEq, Prod.mk.injEq] at h
      obtain ⟨h1, h2⟩ := h
      subst h1; subst h2
      simp [writtenBytes]
  | cons n ns ih =>
      rw [runDrain] at h
      cases hw : Transport.write_ready (.ok n) s with
      | none =>
          simp only [hw] at h
          exact Option.noConfusion h
      | some p =>
          obtain ⟨ps, pe⟩ := p
          simp only [hw] at h
          cases hr : runDrain ns ps with
          | none =>
              simp only [hr] at h
              exact Option.noConfusion h
          | some p2 =>
              obtain ⟨qs, qe⟩ := p2
              simp only [hr] at h
              injection h with h
              injection h with hs he'
              subst hs; subst he'
              rw [writtenBytes_append, List.append_assoc, ih ps qe hr]
              exact write_ready_step n s ps pe hw

/-! ## Claim theorems -/

/-- Claim C1: for every sequence of `write(b1), ..., write(bn)` calls made
while a write queue exists (the transport is backpressured) and not closing,
the bytes subsequently written to the write fd by the drain handler equal the
concatenation `b1 ++ ... ++ bn` (after the bytes already queued), in order,
regardless of how `os.writev` fragments each gather-write (the `ns` oracle)
and regardless of the `IOV_MAX` coalescing. -/
theorem write_queue_fifo (s0 s1 s2 : TransportState) (q0 : List Bytes)
    (bs : List Bytes) (ns : List Nat) (evs : List Event)
    (hq : s0.queue = some q0) (hc : s0.closing = false) (he : s0.eof = false)
    (hw : applyWrites bs s0 = some s1)
    (hd : runDrain ns s1 = some (s2, evs))
    (hdone : s2.queue = none) :
    writtenBytes evs = q0.flatten ++ bs.flatten := by
  obtain ⟨q1, hq1, hf1⟩ := applyWrites_flatten bs s0 q0 s1 hq hc he hw
  have hinv := runDrain_invariant ns s1 s2 evs hd
  have h2 : queueBytes s2 = [] := by simp [queueBytes, hdone]
  have h1' : queueBytes s1 = q0.flatten ++ bs.flatten := by simp [queueBytes, hq1, hf1]
  rw [h2, List.append_nil, h1'] at hinv
  exact hinv

/-- Backpressured transport used to witness C1. -/
def c1s0 : TransportState :=
  { in_fd := -1, out_fd := 1, queue := some [[1, 2]], closing := false,
    is_reading := false, eof := false, eio_is_eof := false }

/-- State of the C1 witness after the two writes. -/
def c1s1 : TransportState := { c1s0 with queue := some [[1, 2], [3], [4]] }

/-- State of the C1 witness after the drain. -/
def c1s2 : TransportState := { c1s0 with queue := none }

/-- Trace of the C1 witness drain. -/
def c1evs : List Event :=
  [.fdWrite 1 [1, 2], .fdWrite 1 [3, 4], .resumeWriting, .removeWriter 1]

/-- Concrete run of `write_queue_fifo`: queue holding `[1,2]`, then
`write [3]` and `write [4]`, drained by two writev calls of two bytes each. -/
theorem write_queue_fifo_witness :
    applyWrites [[3], [4]] c1s0 = some c1s1 ∧
    runDrain [2, 2] c1s1 = some (c1s2, c1evs) ∧
    writtenBytes c1evs = List.flatten [[1, 2]] ++ List.flatten [[3], [4]] :=
  ⟨by decide, by decide,
    write_queue_fifo c1s0 c1s1 c1s2 [[1, 2]] [[3], [4]] [2, 2] c1evs rfl rfl rfl
      (by decide) (by decide) rfl⟩

/-- Backpressured transport used to refute the resume-writing part of C2. -/
def c2s : TransportState :=
  { in_fd := 0, out_fd := 1, queue := some [[1]], closing := false,
    is_reading := true, eof := false, eio_is_eof := false }

/-- Claim C2 is false as stated: aborting a transport with a pending write
queue does signal `resume_writing` to the consumer, because `abort` calls
`_remove_write_queue`, whose queue-discarding branch unconditionally calls
`self._protocol.resume_writing()` first. -/
theorem abort_resume_writing_cex :
    Event.resumeWriting ∈ (Transport.abort none c2s).2 := by decide

/-- Claim C2 (amended): `abort(error)` immediately stops reading, discards
any pending write queue — signaling `resume_writing` exactly when a queue
existed — schedules (via `loop.call_soon`, not inline) exactly one
`connection_lost` notification carrying the given error (or none), and
invokes the component-specific `_close` resource-release hook. -/
theorem abort_unconditional (exc : Option Nat) (s : TransportState) :
    (Transport.abort exc s).1.is_reading = false ∧
    (Transport.abort exc s).1.in_fd = -1 ∧
    (Transport.abort exc s).1.queue = none ∧
    (Transport.abort exc s).1.closing = true ∧
    (Transport.abort exc s).2.countP isConnLost = 1 ∧
    (Transport.abort exc s).2.count (Event.connectionLostScheduled exc) = 1 ∧
    Event.closeHook ∈ (Transport.abort exc s).2 ∧
    (Event.resumeWriting ∈ (Transport.abort exc s).2 ↔ s.queue.isSome = true) := by
  cases hq : s.queue <;> cases hr : s.is_reading <;>
    simp [Transport.abort, Transport.close_reader, Transport.pause_reading,
      Transport.remove_write_queue, hq, hr, isConnLost]

/-- Claim C3: a fatal (non-would-block) `os.writev` error in the write-ready
handler aborts the transport, leaving the read side unregistered from the
reactor and scheduling exactly one `connection_lost` notification carrying
that error — never zero and never more than one. -/
theorem fatal_write_error_aborts (e : Nat) (s s1 : TransportState) (evs : List Event)
    (h : Transport.write_ready (.err e) s = some (s1, evs)) :
    s1.is_reading = false ∧
    evs.countP isConnLost = 1 ∧
    evs.count (Event.connectionLostScheduled (some e)) = 1 := by
  cases hq : s.queue with
  | none =>
      simp only [Transport.write_ready, hq] at h
      exact Option.noConfusion h
  | some q =>
      simp only [Transport.write_ready, hq] at h
      injection h with h
      injection h with hs he'
      subst hs; subst he'
      cases hr : s.is_reading <;>
        simp [Transport.abort, Transport.close_reader, Transport.pause_reading,
          Transport.remove_write_queue, hq, hr, isConnLost]

/-- Backpressured reading transport used to witness C3. -/
def c3s : TransportState :=
  { in_fd := 0, out_fd := 1, queue := some [[7]], closing := false,
    is_reading := true, eof := false, eio_is_eof := false }

/-- State of the C3 witness after the fatal write error (errno 32, EPIPE). -/
def c3s1 : TransportState :=
  { in_fd := -1, out_fd := 1, queue := none, closing := true,
    is_reading := false, eof := false, eio_is_eof := false }

/-- Trace of the C3 witness abort. -/
def c3evs : List Event :=
  [.removeReader 0, .resumeWriting, .removeWriter 1,
   .connectionLostScheduled (some 32), .closeHook]

/-- Concrete run of `fatal_write_error_aborts` at errno 32. -/
theorem fatal_write_error_aborts_witness :
    c3s1.is_reading = false ∧
    c3evs.countP isConnLost = 1 ∧
    c3evs.count (Event.connectionLostScheduled (some 32)) = 1 :=
  fatal_write_error_aborts 32 c3s c3s1 c3evs (by decide)

/-- Claim C4: when the write queue fully drains inside the write-ready
handler, the transport signals `resume_writing` and unregisters
write-readiness, then performs the half-close exactly when end-of-output was
previously requested, then performs the full teardown (`abort`) exactly when
close was previously requested — in that order; a partial drain performs none
of these, so they happen only on drain completion. -/
theorem drain_completion_order (n : Nat) (s : TransportState) (q q1 : List Bytes)
    (hq : s.queue = some q) (hd : Transport.dropBytes q n = some q1) :
    (q1 = [] → Transport.write_ready (.ok n) s =
      some ((if s.closing then Transport.abort none { s with queue := none }
             else ({ s with queue := none }, [])).1,
        [Event.fdWrite s.out_fd (q.flatten.take n), Event.resumeWriting,
         Event.removeWriter s.out_fd]
        ++ (if s.eof then [Event.writeEofNow] else [])
        ++ (if s.closing then (Transport.abort none { s with queue := none }).2
            else []))) ∧
    (q1 ≠ [] → Transport.write_ready (.ok n) s =
      some ({ s with queue := some q1 },
        [Event.fdWrite s.out_fd (q.flatten.take n)])) := by
  constructor
  · intro h1
    subst h1
    by_cases hcl : s.closing = true <;> by_cases hef : s.eof = true <;>
      simp [Transport.write_ready, hq, Transport.after_writev, hd,
        Transport.remove_write_queue, hcl, hef]
  · intro h1
    simp [Transport.write_ready, hq, Transport.after_writev, hd, h1]

/-- Transport with end-of-output requested and a pending queue, used to
witness C4. -/
def c4s : TransportState :=
  { in_fd := -1, out_fd := 1, queue := some [[5, 6]], closing := false,
    is_reading := false, eof := true, eio_is_eof := false }

/-- Concrete runs of `drain_completion_order`: a full drain performs the
deferred half-close right after the resume/unregister pair, and a partial
drain performs neither. -/
theorem drain_completion_order_witness :
    (Transport.write_ready (.ok 2) c4s =
      some ({ c4s with queue := none },
        [Event.fdWrite 1 [5, 6], Event.resumeWriting, Event.removeWriter 1]
        ++ [Event.writeEofNow] ++ [])) ∧
    (Transport.write_ready (.ok 1) c4s =
      some ({ c4s with queue := some [[6]] }, [Event.fdWrite 1 [5]])) :=
  ⟨(drain_completion_order 2 c4s [[5, 6]] [] rfl (by decide)).1 rfl,
   (drain_completion_order 1 c4s [[5, 6]] [[6]] rfl (by decide)).2 (by decide)⟩

/-- Already-closing transport with no pending queue, used against C5. -/
def c5s : TransportState :=
  { in_fd := -1, out_fd := 1, queue := none, closing := true,
    is_reading := false, eof := false, eio_is_eof := false }

/-- Claim C5 is false as universally stated: on an already-closing transport
with no pending queue (such as one already aborted), `close()` is a guarded
no-op, whereas `abort(None)` would schedule a further `connection_lost`
notification, so "close() with no pending queue behaves exactly as
abort(None)" fails there. -/
theorem close_equals_abort_cex :
    Transport.close c5s ≠ Transport.abort none c5s := by decide

/-- Claim C5 (amended): on a transport that is not already closing, `close()`
with no pending write queue behaves exactly as `abort(None)`, and `close()`
with a pending queue marks the transport closing, stops reading, leaves the
queue intact, and emits no effect beyond unregistering the reader (teardown
is deferred to the drain handler); on a closing transport, `close()` is a
no-op and every `write` is silently ignored with no state change. -/
theorem close_graceful (s : TransportState) :
    (s.closing = false → s.queue = none →
      Transport.close s = Transport.abort none s) ∧
    (s.closing = false → s.queue.isSome = true →
      (Transport.close s).1.closing = true ∧
      (Transport.close s).1.is_reading = false ∧
      (Transport.close s).1.queue = s.queue ∧
      ∀ e ∈ (Transport.close s).2, e = Event.removeReader s.in_fd) ∧
    (s.closing = true → Transport.close s = (s, [])) ∧
    (s.closing = true → ∀ data r, Transport.write data r s = some (s, [])) := by
  refine ⟨?_, ?_, ?_, ?_⟩
  · intro hc hq
    cases hr : s.is_reading <;>
      simp [Transport.close, Transport.abort, Transport.close_reader,
        Transport.pause_reading, Transport.remove_write_queue, hc, hq, hr]
  · intro hc hqs
    obtain ⟨q, hq⟩ := Option.isSome_iff_exists.mp hqs
    cases hr : s.is_reading <;>
      simp [Transport.close, Transport.close_reader, Transport.pause_reading,
        hc, hq, hr]
  · intro hc
    simp [Transport.close, hc]
  · intro hc data r
    simp [Transport.write, hc]

/-- Open transport with no queue, used to witness the delegation part of C5. -/
def c5so : TransportState :=
  { in_fd := 0, out_fd := 1, queue := none, closing := false,
    is_reading := true, eof := false, eio_is_eof := false }

/-- Open transport with a pending queue, used to witness the deferral part
of C5. -/
def c5sq : TransportState := { c5so with queue := some [[9]] }

/-- Concrete runs of `close_graceful` covering delegation to abort, queue
preservation, and the closing no-ops. -/
theorem close_graceful_witness :
    (Transport.close c5so = Transport.abort none c5so) ∧
    ((Transport.close c5sq).1.queue = c5sq.queue) ∧
    (Transport.close c5s = (c5s, [])) ∧
    (Transport.write [1] (.ok 1) c5s = some (c5s, [])) :=
  ⟨(close_graceful c5so).1 rfl rfl,
   ((close_graceful c5sq).2.1 rfl rfl).2.2.1,
   (close_graceful c5s).2.2.1 rfl,
   (close_graceful c5s).2.2.2 rfl [1] (.ok 1)⟩

theorem handle_read_eof (keep : Bool) (s : TransportState) :
    (Transport.handle_read [] keep s).1.in_fd = -1 ∧
    (Transport.handle_read [] keep s).1.is_reading = false ∧
    Event.eofReceived ∈ (Transport.handle_read [] keep s).2 ∧
    (keep = false → (Transport.handle_read [] keep s).1.closing = true) ∧
    (keep = true → (Transport.handle_read [] keep s).1.closing = s.closing) := by
  cases keep <;> cases hr : s.is_reading <;> cases hcl : s.closing <;>
    cases hq : s.queue <;>
      simp [Transport.handle_read, Transport.close_reader, Transport.pause_reading,
        Transport.close, Transport.abort, Transport.remove_write_queue, hr, hcl, hq]

theorem eofReceived_not_in_abort (exc : Option Nat) (s : TransportState) :
    Event.eofReceived ∉ (Transport.abort exc s).2 := by
  cases hr : s.is_reading <;> cases hq : s.queue <;>
    simp [Transport.abort, Transport.close_reader, Transport.pause_reading,
      Transport.remove_write_queue, hr, hq]

/-- Claim C6: on read-readiness a zero-length read — and, when `_eio_is_eof`
is set, which `SubprocessTransport.__init__` does exactly in pty mode
(`initEioIsEof`) — an `EIO` error is treated as end-of-input: the reader is
unregistered, the read fd becomes the invalid sentinel, the consumer's
`eof_received` runs, and the transport is fully closed unless `eof_received`
returned true; any other OS read error aborts immediately with that error and
never reports `eof_received`. -/
theorem read_eof_semantics (s : TransportState) (keep : Bool) (e : Nat) :
    (Transport.read_ready (.ok []) keep s).1.in_fd = -1 ∧
    (Transport.read_ready (.ok []) keep s).1.is_reading = false ∧
    Event.eofReceived ∈ (Transport.read_ready (.ok []) keep s).2 ∧
    (keep = false → (Transport.read_ready (.ok []) keep s).1.closing = true) ∧
    (keep = true → (Transport.read_ready (.ok []) keep s).1.closing = s.closing) ∧
    (s.eio_is_eof = true →
      Transport.read_ready (.err EIO) keep s = Transport.read_ready (.ok []) keep s) ∧
    (s.eio_is_eof = false ∨ e ≠ EIO →
      Transport.read_ready (.err e) keep s = Transport.abort (some e) s ∧
      Event.eofReceived ∉ (Transport.read_ready (.err e) keep s).2) ∧
    SubprocessTransport.initEioIsEof true = true := by
  obtain ⟨h1, h2, h3, h4, h5⟩ := handle_read_eof keep s
  refine ⟨h1, h2, h3, h4, h5, ?_, ?_, rfl⟩
  · intro heio
    simp [Transport.read_ready, heio]
  · intro he
    have hcond : ¬(s.eio_is_eof = true ∧ e = EIO) := by
      rcases he with h | h
      · simp [h]
      · simp [h]
    have heq : Transport.read_ready (.err e) keep s = Transport.abort (some e) s := by
      simp only [Transport.read_ready]
      rw [if_neg hcond]
    exact ⟨heq, heq ▸ eofReceived_not_in_abort (some e) s⟩

/-- Pty-backed reading transport used to witness C6. -/
def c6s : TransportState :=
  { in_fd := 3, out_fd := 3, queue := none, closing := false,
    is_reading := true, eof := false, eio_is_eof := true }

/-- Concrete runs of `read_eof_semantics`: a declined EOF closes the
transport, `EIO` behaves as EOF in pty mode, and a genuine error (errno 13)
aborts. -/
theorem read_eof_semantics_witness :
    (Transport.read_ready (.ok []) false c6s).1.closing = true ∧
    Transport.read_ready (.err EIO) false c6s =
      Transport.read_ready (.ok []) false c6s ∧
    Transport.read_ready (.err 13) false c6s = Transport.abort (some 13) c6s :=
  ⟨(read_eof_semantics c6s false 13).2.2.2.1 rfl,
   (read_eof_semantics c6s false 13).2.2.2.2.2.1 rfl,
   ((read_eof_semantics c6s false 13).2.2.2.2.2.2.1 (Or.inr (by decide))).1⟩

theorem send_signal_benign (sig : Nat) (st : SubprocState)
    (hp : st.hasProcess = true) :
    SubprocessTransport.send_signal sig .noSuchProcess st = some (st, []) := by
  by_cases hr : st.returncode.isSome = true <;>
    simp [SubprocessTransport.send_signal, hp, hr]

theorem runSubprocOps_stable (c : Int) (ops : List SubprocOp) :
    ∀ st st' evs rcs, st.returncode = some c →
      runSubprocOps ops st = some (st', evs, rcs) →
      st'.returncode = some c ∧ (∀ rc ∈ rcs, rc = some c) ∧
        ∀ sig, Event.signalSent sig ∉ evs := by
  induction ops with
  | nil =>
      intro st st' evs rcs hrc h
      simp only [runSubprocOps, Option.some.injEq, Prod.mk.injEq] at h
      obtain ⟨h1, h2, h3⟩ := h
      subst h1; subst h2; subst h3
      simp [hrc]
  | cons op ops ih =>
      intro st st' evs rcs hrc h
      cases op with
      | sendSig sig k =>
          rw [runSubprocOps] at h
          by_cases hp : st.hasProcess = false
          · simp [SubprocessTransport.send_signal, hp] at h
          · have hs : SubprocessTransport.send_signal sig k st = some (st, []) := by
              simp [SubprocessTransport.send_signal, hp, hrc]
            rw [hs] at h
            cases hr : runSubprocOps ops st with
            | none =>
                simp only [hr] at h
                exact Option.noConfusion h
            | some p =>
                obtain ⟨st2, e2, rcs2⟩ := p
                simp only [hr] at h
                injection h with h
                injection h with h1 h2
                injection h2 with h2 h3
                subst h1; subst h2; subst h3
                obtain ⟨g1, g2, g3⟩ := ih st st2 e2 rcs2 hrc hr
                exact ⟨g1, g2, by simpa using g3⟩
      | getRc =>
          rw [runSubprocOps] at h
          cases hr : runSubprocOps ops st with
          | none =>
              simp only [hr] at h
              exact Option.noConfusion h
          | some p =>
              obtain ⟨st2, e2, rcs2⟩ := p
              simp only [hr] at h
              injection h with h
              injection h with h1 h2
              injection h2 with h2 h3
              subst h1; subst h2; subst h3
              obtain ⟨g1, g2, g3⟩ := ih st st2 e2 rcs2 hrc hr
              refine ⟨g1, ?_, g3⟩
              intro rc hm
              rcases List.mem_cons.mp hm with h | h
              · rw [h, SubprocessTransport.get_returncode, hrc]
              · exact g2 rc h

/-- Claim C7: once a `SubprocessTransport`'s exit status has been observed
(by either exit-detection mechanism) it never changes: across any subsequent
sequence of `get_returncode` and `send_signal` calls (including the
`terminate`/`kill` wrappers) the cached status keeps its value, every query
returns it, and no signal is delivered; moreover `send_signal` always
swallows a no-such-process error as a benign race instead of propagating
it. -/
theorem returncode_stable (c : Int) (st st' : SubprocState) (ops : List SubprocOp)
    (evs : List Event) (rcs : List (Option Int))
    (hrc : st.returncode = some c)
    (hrun : runSubprocOps ops st = some (st', evs, rcs)) :
    st'.returncode = some c ∧
    (∀ rc ∈ rcs, rc = some c) ∧
    (∀ sig, Event.signalSent sig ∉ evs) ∧
    (∀ sig (st2 : SubprocState), st2.hasProcess = true →
      SubprocessTransport.send_signal sig .noSuchProcess st2 = some (st2, [])) := by
  obtain ⟨g1, g2, g3⟩ := runSubprocOps_stable c ops st st' evs rcs hrc hrun
  exact ⟨g1, g2, g3, fun sig st2 hp => send_signal_benign sig st2 hp⟩

/-- Freshly spawned subprocess state used to witness C7. -/
def c7st0 : SubprocState :=
  { hasProcess := true, returncode := none, closing := false,
    pidfd := 7, pidfdRegistered := true }

/-- Subprocess state of the C7 witness after the pidfd mechanism observed
exit status 0. -/
def c7st : SubprocState := (SubprocessTransport.pidfd_ready 0 c7st0).1

/-- Concrete run of `returncode_stable`: after `pidfd_ready` observes status
0, a `send_signal` followed by a `get_returncode` delivers nothing and
reports 0. -/
theorem returncode_stable_witness :
    c7st.returncode = some 0 ∧
    runSubprocOps [.sendSig 15 .delivered, .getRc] c7st =
      some (c7st, [], [some 0]) ∧
    ∀ rc ∈ [some (0 : Int)], rc = some 0 :=
  ⟨rfl, by decide,
    (returncode_stable 0 c7st c7st [.sendSig 15 .delivered, .getRc] [] [some 0]
      rfl (by decide)).2.1⟩

/-- Claim C8: `write_eof` may be called at most once: a second call fails the
`assert not self._eof` contract check (modelled as `none`) rather than being
a silent no-op; a first call with no pending queue performs the
component-specific half-close (`_write_eof_now`) immediately, while a first
call with a pending queue only records the request, the half-close happening
instead when the drain handler empties the queue. -/
theorem write_eof_once (s : TransportState) (q : List Bytes) (n : Nat) :
    (s.eof = true → Transport.write_eof s = none) ∧
    (s.eof = false → s.queue = none →
      Transport.write_eof s = some ({ s with eof := true }, [Event.writeEofNow])) ∧
    (s.eof = false → s.queue.isSome = true →
      Transport.write_eof s = some ({ s with eof := true }, [])) ∧
    (s.eof = true → s.queue = some q → Transport.dropBytes q n = some [] →
      ∃ s1 evs, Transport.write_ready (.ok n) s = some (s1, evs) ∧
        Event.writeEofNow ∈ evs) := by
  refine ⟨?_, ?_, ?_, ?_⟩
  · intro he
    simp [Transport.write_eof, he]
  · intro he hq
    simp [Transport.write_eof, he, hq]
  · intro he hqs
    obtain ⟨q', hq⟩ := Option.isSome_iff_exists.mp hqs
    simp [Transport.write_eof, he, hq]
  · intro he hq hd
    refine ⟨(if s.closing then Transport.abort none { s with queue := none }
             else ({ s with queue := none }, [])).1,
      [Event.fdWrite s.out_fd (q.flatten.take n), Event.resumeWriting,
       Event.removeWriter s.out_fd] ++ [Event.writeEofNow]
      ++ (if s.closing then (Transport.abort none { s with queue := none }).2
          else []), ?_, by simp⟩
    by_cases hcl : s.closing = true <;>
      simp [Transport.write_ready, hq, Transport.after_writev, hd,
        Transport.remove_write_queue, hcl, he]

/-- Half-closed transport used to witness the repeat-call part of C8. -/
def c8sa : TransportState :=
  { in_fd := 0, out_fd := 1, queue := none, closing := false,
    is_reading := true, eof := true, eio_is_eof := false }

/-- Idle transport used to witness the immediate half-close part of C8. -/
def c8sb : TransportState := { c8sa with eof := false }

/-- Backpressured transport used to witness the deferred half-close part
of C8. -/
def c8sc : TransportState := { c8sa with eof := false, queue := some [[8]] }

/-- Concrete runs of `write_eof_once`: the second call fails the contract
check, the idle first call half-closes at once, the backpressured first call
defers, and the drain then emits the half-close. -/
theorem write_eof_once_witness :
    Transport.write_eof c8sa = none ∧
    Transport.write_eof c8sb = some ({ c8sb with eof := true }, [Event.writeEofNow]) ∧
    Transport.write_eof c8sc = some ({ c8sc with eof := true }, []) ∧
    ∃ s1 evs, Transport.write_ready (.ok 1) { c8sc with eof := true } =
      some (s1, evs) ∧ Event.writeEofNow ∈ evs :=
  ⟨(write_eof_once c8sa [] 0).1 rfl,
   (write_eof_once c8sb [] 0).2.1 rfl rfl,
   (write_eof_once c8sc [] 0).2.2.1 rfl rfl,
   (write_eof_once { c8sc with eof := true } [[8]] 1).2.2.2 rfl rfl (by decide)⟩

theorem spooler_drain_ok (cs : List Bytes) (sp : SpoolerState)
    (hfd : sp.fd ≠ -1) (hcs : ∀ c ∈ cs, c ≠ []) :
    (Spooler.drain (cs.map ReadResult.ok) sp).1.contents = sp.contents ++ cs ∧
    (Spooler.drain (cs.map ReadResult.ok) sp).1.fd = sp.fd := by
  induction cs generalizing sp with
  | nil => simp [Spooler.drain]
  | cons c cs ih =>
      have hc : c ≠ [] := hcs c (by simp)
      simp only [List.map_cons, Spooler.drain]
      rw [if_neg hfd]
      simp only [Spooler.read_ready, if_pos hc]
      obtain ⟨g1, g2⟩ := ih { sp with contents := sp.contents ++ [c] } hfd
        (fun x hx => hcs x (by simp [hx]))
      constructor
      · rw [g1]
        simp
      · rw [g2]

/-- Claim C9: `Spooler.get` first synchronously drains all
immediately-available data from the fd, then returns the concatenation, in
arrival order, of every buffered chunk; `get(reset=True)` additionally
empties the buffer so a later `get()` returns only bytes received after the
reset point; and after the source end closes (the zero-length read makes the
spooler self-close), `get` still returns everything buffered before
closure. -/
theorem spooler_get_spec (sp : SpoolerState) (cs cs2 : List Bytes) (reset : Bool)
    (pending : List ReadResult) (hfd : sp.fd ≠ -1)
    (hcs : ∀ c ∈ cs, c ≠ []) (hcs2 : ∀ c ∈ cs2, c ≠ []) :
    (Spooler.get reset (cs.map ReadResult.ok) sp).2 =
      sp.contents.flatten ++ cs.flatten ∧
    (Spooler.get false (cs2.map ReadResult.ok)
      ((Spooler.get true (cs.map ReadResult.ok) sp).1.1)).2 = cs2.flatten ∧
    (Spooler.get reset pending ((Spooler.read_ready (.ok []) sp).1)).2 =
      sp.contents.flatten := by
  obtain ⟨g1, g2⟩ := spooler_drain_ok cs sp hfd hcs
  refine ⟨?_, ?_, ?_⟩
  · simp [Spooler.get, g1]
  · have hst : (Spooler.get true (cs.map ReadResult.ok) sp).1.1 =
        { (Spooler.drain (cs.map ReadResult.ok) sp).1 with contents := [] } := by
      simp [Spooler.get]
    rw [hst]
    obtain ⟨g3, g4⟩ := spooler_drain_ok cs2
      { (Spooler.drain (cs.map ReadResult.ok) sp).1 with contents := [] }
      (by simpa [g2] using hfd) hcs2
    simp [Spooler.get, g3]
  · have hclosed : (Spooler.read_ready (.ok []) sp).1 = { sp with fd := -1 } := by
      simp [Spooler.read_ready, Spooler.close, hfd]
    rw [hclosed]
    cases pending with
    | nil => simp [Spooler.get, Spooler.drain]
    | cons r rs => simp [Spooler.get, Spooler.drain]

/-- Live spooler holding one chunk, used to witness C9. -/
def c9sp : SpoolerState := { fd := 4, contents := [[1]] }

/-- Concrete runs of `spooler_get_spec`: a drain-then-concatenate `get`, a
post-reset `get` seeing only newer chunks, and a post-close `get` still
returning the buffer. -/
theorem spooler_get_spec_witness :
    (Spooler.get true ([[2]].map ReadResult.ok) c9sp).2 = [1, 2] ∧
    (Spooler.get false ([[3]].map ReadResult.ok)
      ((Spooler.get true ([[2]].map ReadResult.ok) c9sp).1.1)).2 = [3] ∧
    (Spooler.get true [ReadResult.ok [9]]
      ((Spooler.read_ready (.ok []) c9sp).1)).2 = [1] :=
  ⟨(spooler_get_spec c9sp [[2]] [[3]] true [ReadResult.ok [9]] (by decide)
      (by decide) (by decide)).1,
   (spooler_get_spec c9sp [[2]] [[3]] true [ReadResult.ok [9]] (by decide)
      (by decide) (by decide)).2.1,
   (spooler_get_spec c9sp [[2]] [[3]] true [ReadResult.ok [9]] (by decide)
      (by decide) (by decide)).2.2⟩

/-- Claim C10: `pause_reading` and `resume_reading` are idempotent and
guarded: pausing when not registered changes nothing, resuming when already
registered changes nothing, resuming after the read side was closed (fd at
the invalid sentinel) changes nothing, and consequently no reader callback is
ever registered for the invalid fd. -/
theorem pause_resume_guards (s : TransportState) :
    (s.is_reading = false → Transport.pause_reading s = (s, [])) ∧
    (s.is_reading = true → Transport.resume_reading s = (s, [])) ∧
    (s.in_fd = -1 → Transport.resume_reading s = (s, [])) ∧
    Event.addReader (-1) ∉ (Transport.resume_reading s).2 := by
  refine ⟨?_, ?_, ?_, ?_⟩
  · intro h
    simp [Transport.pause_reading, h]
  · intro h
    simp [Transport.resume_reading, h]
  · intro h
    simp [Transport.resume_reading, h]
  · by_cases hr : s.is_reading = true
    · simp [Transport.resume_reading, hr]
    · by_cases hf : s.in_fd = -1
      · simp [Transport.resume_reading, hf]
      · simp [Transport.resume_reading, hr, hf]
        exact fun hcontra => hf hcontra.symm

/-- Paused transport used to witness the pause guard of C10. -/
def c10a : TransportState :=
  { in_fd := 0, out_fd := 1, queue := none, closing := false,
    is_reading := false, eof := false, eio_is_eof := false }

/-- Reading transport used to witness the resume guard of C10. -/
def c10b : TransportState := { c10a with is_reading := true }

/-- EOF-closed transport used to witness the invalid-fd guard of C10. -/
def c10c : TransportState := { c10a with in_fd := -1 }

/-- Concrete runs of `pause_resume_guards` on the three guarded states. -/
theorem pause_resume_guards_witness :
    Transport.pause_reading c10a = (c10a, []) ∧
    Transport.resume_reading c10b = (c10b, []) ∧
    Transport.resume_reading c10c = (c10c, []) :=
  ⟨(pause_resume_guards c10a).1 rfl,
   (pause_resume_guards c10b).2.1 rfl,
   (pause_resume_guards c10c).2.2.1 rfl⟩

end Cockpit
